import Mathlib

/-!
Shallow embedding of the WFC3 UVIS pixel-area-map (PAM) subarray correction
from the notebook `WFC3_UVIS_Pixel_Area_Map_Corrections_for_Subarrays.ipynb`,
function `make_PAMcorr_image_UVIS`, together with theorems about its behaviour.

Arrays are modelled as lists of rows of rational numbers (numpy float
arithmetic is modelled exactly over `ℚ`).  FITS headers are modelled as
association lists from keyword strings to rational values, matching the
dictionary-style access `scihdr['LTV1']` of the source.  Reading a pixel-area
map from disk (`fits.getdata(pamdir + 'UVIS1wfc3_map.fits')`) is modelled by
an explicit file environment `fitsdata : String → Mat` applied to the same
path string the source builds.
-/

set_option allowUnsafeReducibility true in
attribute [semireducible] Rat.add Rat.mul Rat.sub Rat.inv Rat.ofScientific

set_option maxRecDepth 100000

/-- A 2-D numpy array: a list of rows of rationals. -/
abbrev Mat : Type := List (List ℚ)

/-- Number of rows (`a.shape[0]`). -/
def Mat.rows (m : Mat) : Nat := m.length

/-- Number of columns (`a.shape[1]`), read off the first row. -/
def Mat.cols (m : Mat) : Nat := (m.headD []).length

/-- A genuine numpy array is rectangular: every row has the common length. -/
def Mat.isRect (m : Mat) : Prop := ∀ r ∈ m, r.length = m.cols

instance (m : Mat) : Decidable m.isRect := by
  unfold Mat.isRect; infer_instance

/-- Python `int()` applied to a real value: truncation toward zero
(`Int.tdiv` is the truncating division of the numerator by the
denominator). -/
def pyInt (q : ℚ) : Int := q.num.tdiv q.den

/-- Normalize a Python slice endpoint against a list of length `n`
(step 1): a negative endpoint counts from the end, and endpoints are
clamped to `[0, n]`. -/
def sliceIdx (n : Nat) (i : Int) : Nat :=
  if i < 0 then (max 0 ((n : Int) + i)).toNat else min i.toNat n

/-- Python/numpy basic slicing `xs[i:j]` (step 1): out-of-range endpoints
are clipped, never an error. -/
def pySlice {α : Type} (xs : List α) (i j : Int) : List α :=
  (xs.drop (sliceIdx xs.length i)).take (sliceIdx xs.length j - sliceIdx xs.length i)

/-- numpy 2-D slice `m[y0:y1, x0:x1]`. -/
def matSlice (m : Mat) (y0 y1 x0 x1 : Int) : Mat :=
  (pySlice m y0 y1).map (fun row => pySlice row x0 x1)

/-- numpy broadcasting of one axis: lengths must agree or one of them be 1. -/
def bcDim (a b : Nat) : Option Nat :=
  if a = b then some a else if a = 1 then some b else if b = 1 then some a else none

/-- Read entry `(i, j)` of an array of shape `(r, c)` under broadcasting:
an axis of length 1 is repeated. -/
def bget (m : Mat) (r c : Nat) (i j : Nat) : ℚ :=
  (m.getD (if r = 1 then 0 else i) []).getD (if c = 1 then 0 else j) 0

/-- The ways the source function can fail: the explicit
`raise Exception('Chip case not handled.')`, numpy's `ValueError` when the
operand shapes of `*` do not broadcast, and Python's `KeyError` on a missing
header keyword. -/
inductive PamError : Type
  | chipError
  | broadcastError
  | keyError
  deriving DecidableEq, Repr

instance {e a : Type} [DecidableEq e] [DecidableEq a] : DecidableEq (Except e a) := fun a b =>
  match a, b with
  | .ok x, .ok y => decidable_of_iff (x = y) (by simp)
  | .error e, .error f => decidable_of_iff (e = f) (by simp)
  | .ok _, .error _ => isFalse (by simp)
  | .error _, .ok _ => isFalse (by simp)

/-- numpy elementwise product `A * B` of two 2-D arrays, with broadcasting;
incompatible shapes raise a `ValueError`. -/
def npMul (A B : Mat) : Except PamError Mat :=
  match bcDim A.rows B.rows, bcDim A.cols B.cols with
  | some R, some C =>
      .ok ((List.range R).map (fun i => (List.range C).map (fun j =>
        bget A A.rows A.cols i j * bget B B.rows B.cols i j)))
  | _, _ => .error .broadcastError

/-- A FITS header: keyword/value pairs, accessed like a Python dict. -/
abbrev Header : Type := List (String × ℚ)

/-- `hdr[k]`: the value of the first pair whose keyword is `k`. -/
def hget (hdr : Header) (k : String) : Option ℚ :=
  (hdr.find? (fun p => p.1 = k)).map Prod.snd

/-- The notebook function:

```
def make_PAMcorr_image_UVIS(data, scihdr, pamdir):
    data = np.copy(data)
    x0 = int(np.abs(scihdr['LTV1']))
    y0 = int(np.abs(scihdr['LTV2']))
    x1 = int(x0 + scihdr['NAXIS1'])
    y1 = int(y0 + scihdr['NAXIS2'])
    if scihdr['CCDCHIP'] == 1:
        pam = fits.getdata(pamdir + 'UVIS1wfc3_map.fits')
        pamcorr_data = data * pam[y0:y1, x0:x1]
    elif scihdr['CCDCHIP'] == 2:
        pam = fits.getdata(pamdir + 'UVIS2wfc3_map.fits')
        pamcorr_data = data * pam[y0:y1, x0:x1]
    else:
        raise Exception('Chip case not handled.')
    return pamcorr_data
```

`fitsdata` stands for the file system seen through `fits.getdata`. -/
def make_PAMcorr_image_UVIS (data : Mat) (scihdr : Header) (pamdir : String)
    (fitsdata : String → Mat) : Except PamError Mat :=
  match hget scihdr "LTV1", hget scihdr "LTV2", hget scihdr "NAXIS1",
        hget scihdr "NAXIS2", hget scihdr "CCDCHIP" with
  | some ltv1, some ltv2, some naxis1, some naxis2, some ccdchip =>
    let x0 : Int := pyInt |ltv1|
    let y0 : Int := pyInt |ltv2|
    let x1 : Int := pyInt ((x0 : ℚ) + naxis1)
    let y1 : Int := pyInt ((y0 : ℚ) + naxis2)
    if ccdchip = 1 then
      npMul data (matSlice (fitsdata (pamdir ++ "UVIS1wfc3_map.fits")) y0 y1 x0 x1)
    else if ccdchip = 2 then
      npMul data (matSlice (fitsdata (pamdir ++ "UVIS2wfc3_map.fits")) y0 y1 x0 x1)
    else .error .chipError
  | _, _, _, _, _ => .error .keyError

/-- Header of the concrete scenario of the spec's test list. -/
def hdrC1 : Header :=
  [("LTV1", -1), ("LTV2", -1), ("NAXIS1", 2), ("NAXIS2", 2), ("CCDCHIP", 1)]

/-- Chip-1 pixel-area map of the concrete scenario: 4×4 filled with 2.0. -/
def pamC1 : Mat :=
  [[2, 2, 2, 2], [2, 2, 2, 2], [2, 2, 2, 2], [2, 2, 2, 2]]

/-- File environment holding the concrete scenario's maps. -/
def fitsC1 : String → Mat := fun _ => pamC1

theorem pyInt_of_nonneg (q : ℚ) (h : 0 ≤ q) : pyInt q = ⌊q⌋ := by
  rw [pyInt, Rat.floor_def]
  exact Int.tdiv_eq_ediv (Rat.num_nonneg.mpr h) (Int.natCast_nonneg q.den)

theorem pyInt_abs (q : ℚ) : pyInt |q| = ⌊|q|⌋ :=
  pyInt_of_nonneg _ (abs_nonneg q)

theorem pyInt_intCast (n : ℤ) : pyInt (n : ℚ) = n := by
  rw [pyInt, Rat.num_intCast, Rat.den_intCast]
  simp

theorem pyInt_add_intCast (m : ℤ) (q : ℚ) (h : q.den = 1) :
    pyInt ((m : ℚ) + q) = m + q.num := by
  have hq : (m : ℚ) + q = ((m + q.num : ℤ) : ℚ) := by
    conv_lhs => rw [← Rat.coe_int_num_of_den_eq_one h]
    push_cast
    ring
  rw [hq, pyInt_intCast]


/-- C1: on the concrete scenario — image `[[10,20],[30,40]]`, header
`{LTV1: -1, LTV2: -1, NAXIS1: 2, NAXIS2: 2, CCDCHIP: 1}`, chip-1 map a 4×4
array of `2.0` — the correction computes offsets `x0 = 1`, `y0 = 1`,
`x1 = 3`, `y1 = 3`, selects the all-`2.0` 2×2 region, and returns exactly
`[[20, 40], [60, 80]]`. -/
theorem C1_concrete_scenario :
    pyInt |(-1 : ℚ)| = 1 ∧ pyInt ((1 : ℚ) + 2) = 3 ∧
    matSlice pamC1 1 3 1 3 = [[2, 2], [2, 2]] ∧
    make_PAMcorr_image_UVIS [[10, 20], [30, 40]] hdrC1 "pam/" fitsC1 =
      .ok [[20, 40], [60, 80]] := by
  refine ⟨by decide, by decide, by decide, ?_⟩
  decide

/-- C2: for every header carrying the five keywords (with integral axis
lengths, as FITS mandates), the correction computes `x0 = ⌊|LTV1|⌋`,
`y0 = ⌊|LTV2|⌋` (absolute value truncated toward zero; floor and truncation
agree on non-negative values), `x1 = x0 + NAXIS1`, `y1 = y0 + NAXIS2`, and
multiplies the image by exactly the region `pam[y0:y1, x0:x1]` of the
selected chip's map. -/
theorem C2_offsets_and_region (data : Mat) (hdr : Header) (pd : String)
    (fd : String → Mat) (l1 l2 n1 n2 c : ℚ)
    (h1 : hget hdr "LTV1" = some l1) (h2 : hget hdr "LTV2" = some l2)
    (h3 : hget hdr "NAXIS1" = some n1) (h4 : hget hdr "NAXIS2" = some n2)
    (h5 : hget hdr "CCDCHIP" = some c)
    (hn1 : n1.den = 1) (hn2 : n2.den = 1) :
    make_PAMcorr_image_UVIS data hdr pd fd =
      if c = 1 then
        npMul data (matSlice (fd (pd ++ "UVIS1wfc3_map.fits"))
          ⌊|l2|⌋ (⌊|l2|⌋ + n2.num) ⌊|l1|⌋ (⌊|l1|⌋ + n1.num))
      else if c = 2 then
        npMul data (matSlice (fd (pd ++ "UVIS2wfc3_map.fits"))
          ⌊|l2|⌋ (⌊|l2|⌋ + n2.num) ⌊|l1|⌋ (⌊|l1|⌋ + n1.num))
      else .error .chipError := by
  simp only [make_PAMcorr_image_UVIS, h1, h2, h3, h4, h5, pyInt_abs,
    pyInt_add_intCast _ _ hn1, pyInt_add_intCast _ _ hn2]

theorem C2_witness :
    make_PAMcorr_image_UVIS [[10, 20], [30, 40]] hdrC1 "p/" fitsC1 =
      if (1 : ℚ) = 1 then
        npMul [[10, 20], [30, 40]] (matSlice (fitsC1 ("p/" ++ "UVIS1wfc3_map.fits"))
          ⌊|(-1 : ℚ)|⌋ (⌊|(-1 : ℚ)|⌋ + (2 : ℚ).num) ⌊|(-1 : ℚ)|⌋ (⌊|(-1 : ℚ)|⌋ + (2 : ℚ).num))
      else if (1 : ℚ) = 2 then
        npMul [[10, 20], [30, 40]] (matSlice (fitsC1 ("p/" ++ "UVIS2wfc3_map.fits"))
          ⌊|(-1 : ℚ)|⌋ (⌊|(-1 : ℚ)|⌋ + (2 : ℚ).num) ⌊|(-1 : ℚ)|⌋ (⌊|(-1 : ℚ)|⌋ + (2 : ℚ).num))
      else .error .chipError :=
  C2_offsets_and_region [[10, 20], [30, 40]] hdrC1 "p/" fitsC1 (-1) (-1) 2 2 1
    (by decide) (by decide) (by decide) (by decide) (by decide) (by decide) (by decide)

/-- C3: if the header's `CCDCHIP` is neither 1 nor 2 the function fails with
the chip error and returns no array; with `CCDCHIP = 1` the result depends
only on the chip-1 map file (never the chip-2 one), and symmetrically for
`CCDCHIP = 2`. -/
theorem C3_chip_dispatch :
    (∀ (data : Mat) (hdr : Header) (pd : String) (fd : String → Mat)
       (l1 l2 n1 n2 c : ℚ),
       hget hdr "LTV1" = some l1 → hget hdr "LTV2" = some l2 →
       hget hdr "NAXIS1" = some n1 → hget hdr "NAXIS2" = some n2 →
       hget hdr "CCDCHIP" = some c → c ≠ 1 → c ≠ 2 →
       make_PAMcorr_image_UVIS data hdr pd fd = .error .chipError) ∧
    (∀ (data : Mat) (hdr : Header) (pd : String) (fd fd' : String → Mat),
       hget hdr "CCDCHIP" = some 1 →
       fd (pd ++ "UVIS1wfc3_map.fits") = fd' (pd ++ "UVIS1wfc3_map.fits") →
       make_PAMcorr_image_UVIS data hdr pd fd =
         make_PAMcorr_image_UVIS data hdr pd fd') ∧
    (∀ (data : Mat) (hdr : Header) (pd : String) (fd fd' : String → Mat),
       hget hdr "CCDCHIP" = some 2 →
       fd (pd ++ "UVIS2wfc3_map.fits") = fd' (pd ++ "UVIS2wfc3_map.fits") →
       make_PAMcorr_image_UVIS data hdr pd fd =
         make_PAMcorr_image_UVIS data hdr pd fd') := by
  refine ⟨?_, ?_, ?_⟩
  · intro data hdr pd fd l1 l2 n1 n2 c h1 h2 h3 h4 h5 hc1 hc2
    simp only [make_PAMcorr_image_UVIS, h1, h2, h3, h4, h5, if_neg hc1, if_neg hc2]
  · intro data hdr pd fd fd' h5 hfd
    unfold make_PAMcorr_image_UVIS
    cases hl1 : hget hdr "LTV1" <;> cases hl2 : hget hdr "LTV2" <;>
      cases hn1 : hget hdr "NAXIS1" <;> cases hn2 : hget hdr "NAXIS2" <;>
      simp [h5, hfd]
  · intro data hdr pd fd fd' h5 hfd
    unfold make_PAMcorr_image_UVIS
    cases hl1 : hget hdr "LTV1" <;> cases hl2 : hget hdr "LTV2" <;>
      cases hn1 : hget hdr "NAXIS1" <;> cases hn2 : hget hdr "NAXIS2" <;>
      simp [h5, hfd]

/-- A header declaring the unsupported chip 3. -/
def hdrChip3 : Header :=
  [("LTV1", 0), ("LTV2", 0), ("NAXIS1", 1), ("NAXIS2", 1), ("CCDCHIP", 3)]

/-- A header selecting chip 2. -/
def hdrChip2 : Header :=
  [("LTV1", 0), ("LTV2", 0), ("NAXIS1", 1), ("NAXIS2", 1), ("CCDCHIP", 2)]

/-- A second file environment that differs from `fitsC1` away from a chosen
pixel-area-map path. -/
def fitsAlt (path : String) : String → Mat :=
  fun s => if s = path then pamC1 else [[9]]

theorem C3_witness :
    make_PAMcorr_image_UVIS [[5]] hdrChip3 "p/" fitsC1 = .error .chipError ∧
    make_PAMcorr_image_UVIS [[5]] hdrC1 "p/" fitsC1 =
      make_PAMcorr_image_UVIS [[5]] hdrC1 "p/" (fitsAlt ("p/" ++ "UVIS1wfc3_map.fits")) ∧
    make_PAMcorr_image_UVIS [[5]] hdrChip2 "p/" fitsC1 =
      make_PAMcorr_image_UVIS [[5]] hdrChip2 "p/" (fitsAlt ("p/" ++ "UVIS2wfc3_map.fits")) :=
  ⟨C3_chip_dispatch.1 [[5]] hdrChip3 "p/" fitsC1 0 0 1 1 3
      (by decide) (by decide) (by decide) (by decide) (by decide) (by decide) (by decide),
   C3_chip_dispatch.2.1 [[5]] hdrC1 "p/" fitsC1 _ (by decide) (by decide),
   C3_chip_dispatch.2.2 [[5]] hdrChip2 "p/" fitsC1 _ (by decide) (by decide)⟩

/-- C10: the output depends only on the image data, the five header keywords
`LTV1`, `LTV2`, `NAXIS1`, `NAXIS2`, `CCDCHIP`, and the contents of the
selected chip's pixel-area map: two runs agreeing on exactly those values
return elementwise-identical results (or fail identically), whatever other
keywords the headers carry. -/
theorem C10_determinism (data : Mat) (hdr1 hdr2 : Header) (pd : String)
    (fd1 fd2 : String → Mat)
    (hL1 : hget hdr1 "LTV1" = hget hdr2 "LTV1")
    (hL2 : hget hdr1 "LTV2" = hget hdr2 "LTV2")
    (hN1 : hget hdr1 "NAXIS1" = hget hdr2 "NAXIS1")
    (hN2 : hget hdr1 "NAXIS2" = hget hdr2 "NAXIS2")
    (hC : hget hdr1 "CCDCHIP" = hget hdr2 "CCDCHIP")
    (hm1 : hget hdr1 "CCDCHIP" = some 1 →
      fd1 (pd ++ "UVIS1wfc3_map.fits") = fd2 (pd ++ "UVIS1wfc3_map.fits"))
    (hm2 : hget hdr1 "CCDCHIP" = some 2 →
      fd1 (pd ++ "UVIS2wfc3_map.fits") = fd2 (pd ++ "UVIS2wfc3_map.fits")) :
    make_PAMcorr_image_UVIS data hdr1 pd fd1 =
      make_PAMcorr_image_UVIS data hdr2 pd fd2 := by
  unfold make_PAMcorr_image_UVIS
  rw [← hL1, ← hL2, ← hN1, ← hN2, ← hC]
  cases h1 : hget hdr1 "LTV1" <;> cases h2 : hget hdr1 "LTV2" <;>
    cases h3 : hget hdr1 "NAXIS1" <;> cases h4 : hget hdr1 "NAXIS2" <;>
    cases h5 : hget hdr1 "CCDCHIP" <;> try rfl
  rename_i l1 l2 n1 n2 c
  dsimp only
  split_ifs with hc1 hc2
  · rw [hm1 (by rw [h5, hc1])]
  · rw [hm2 (by rw [h5, hc2])]
  · rfl

theorem C10_witness :
    make_PAMcorr_image_UVIS [[10, 20], [30, 40]] hdrC1 "p/" fitsC1 =
      make_PAMcorr_image_UVIS [[10, 20], [30, 40]] (("EXTRA", 7) :: hdrC1) "p/"
        (fitsAlt ("p/" ++ "UVIS1wfc3_map.fits")) :=
  C10_determinism [[10, 20], [30, 40]] hdrC1 (("EXTRA", 7) :: hdrC1) "p/" fitsC1
    (fitsAlt ("p/" ++ "UVIS1wfc3_map.fits"))
    (by decide) (by decide) (by decide) (by decide) (by decide)
    (fun _ => by decide) (fun h => by simp [hdrC1, hget] at h)

/-- numpy scalar multiplication `k * image`. -/
def smul (k : ℚ) (m : Mat) : Mat := m.map (fun row => row.map (fun v => k * v))

theorem smul_rows (k : ℚ) (m : Mat) : (smul k m).rows = m.rows := by
  simp [smul, Mat.rows]

theorem smul_cols (k : ℚ) (m : Mat) : (smul k m).cols = m.cols := by
  cases m <;> simp [smul, Mat.cols]

theorem getD_map_mul (k : ℚ) (row : List ℚ) (j : Nat) :
    (row.map (fun v => k * v)).getD j 0 = k * row.getD j 0 := by
  simp only [List.getD_eq_getElem?_getD, List.getElem?_map]
  cases row[j]? <;> simp

theorem getD_smul (k : ℚ) (m : Mat) (i : Nat) :
    (smul k m).getD i [] = (m.getD i []).map (fun v => k * v) := by
  simp only [smul, List.getD_eq_getElem?_getD, List.getElem?_map]
  cases m[i]? <;> simp

theorem bget_smul (k : ℚ) (m : Mat) (r c i j : Nat) :
    bget (smul k m) r c i j = k * bget m r c i j := by
  unfold bget
  rw [getD_smul, getD_map_mul]

theorem npMul_smul_left (k : ℚ) (A B : Mat) :
    npMul (smul k A) B = Except.map (smul k) (npMul A B) := by
  unfold npMul
  rw [smul_rows, smul_cols]
  cases hR : bcDim A.rows B.rows <;> cases hC : bcDim A.cols B.cols <;>
    try rfl
  simp only [Except.map]
  congr 1
  simp only [bget_smul]
  simp only [smul, List.map_map, Function.comp_def, mul_assoc]

/-- C8 as amended: linearity holds of the correction when the elementwise
products are computed in exact arithmetic — correcting `k * image` gives
exactly `k` times the correction of the image, errors (when any)
coinciding.  The float64 program satisfies this only up to IEEE rounding:
exact elementwise equality fails for some scalars (see the binary64
counterexample below), so the exact-arithmetic scope of this statement is
essential. -/
theorem C8_linearity (k : ℚ) (data : Mat) (hdr : Header) (pd : String)
    (fd : String → Mat) :
    make_PAMcorr_image_UVIS (smul k data) hdr pd fd =
      Except.map (smul k) (make_PAMcorr_image_UVIS data hdr pd fd) := by
  unfold make_PAMcorr_image_UVIS
  cases h1 : hget hdr "LTV1" <;> cases h2 : hget hdr "LTV2" <;>
    cases h3 : hget hdr "NAXIS1" <;> cases h4 : hget hdr "NAXIS2" <;>
    cases h5 : hget hdr "CCDCHIP" <;> try rfl
  dsimp only
  split_ifs <;> first
    | rfl
    | exact npMul_smul_left k data _

/-- `log2Aux fuel n`: structural floor-log-base-2, recursing on fuel so it
evaluates by kernel reduction; exact whenever `n < 2 ^ fuel`. -/
def log2Aux : Nat → Nat → Nat
  | 0, _ => 0
  | fuel + 1, n => if n ≤ 1 then 0 else log2Aux fuel (n / 2) + 1

/-- `⌊log₂ n⌋` for `n < 2 ^ 4096`, far beyond every value a finite binary64
computation can produce. -/
def nlog2 (n : Nat) : Nat := log2Aux 4096 n

/-- `2 ^ e` as a rational, for a possibly negative exponent. -/
def pow2 (e : ℤ) : ℚ :=
  if 0 ≤ e then ((2 ^ e.toNat : ℕ) : ℚ) else 1 / ((2 ^ (-e).toNat : ℕ) : ℚ)

/-- Floor of a rational as an integer (`num / den` with Euclidean
division). -/
def ratFloor (q : ℚ) : ℤ := q.num / q.den

/-- `⌊log₂ x⌋` of a positive rational: the estimate from the numerator's and
denominator's bit lengths, corrected by direct comparison. -/
def floorLog2 (x : ℚ) : ℤ :=
  let e0 : ℤ := (nlog2 x.num.natAbs : ℤ) - (nlog2 x.den : ℤ)
  if pow2 (e0 + 1) ≤ x then e0 + 1 else if pow2 e0 ≤ x then e0 else e0 - 1

/-- IEEE-754 binary64 rounding, round-to-nearest with ties to even: the
value is scaled into `[2 ^ 52, 2 ^ 53)`, rounded to an integer significand,
and scaled back.  This is the rounding numpy's float64 arithmetic applies to
every product; it is exact for zero and faithful throughout the normal
finite range (the only values the claims exercise — no overflow to infinity
or subnormal underflow occurs in them). -/
def roundF (x : ℚ) : ℚ :=
  if x = 0 then 0
  else
    let a : ℚ := |x|
    let e : ℤ := floorLog2 a - 52
    let s : ℚ := a / pow2 e
    let m : ℤ := ratFloor s
    let r : ℚ := s - (m : ℚ)
    let mr : ℤ := if r < 1 / 2 then m else if 1 / 2 < r then m + 1
                  else if m % 2 = 0 then m else m + 1
    (if x < 0 then -1 else 1) * (mr : ℚ) * pow2 e

/-- numpy float64 elementwise product: the exact product of each pair of
entries, rounded to the nearest double. -/
def npMulF (A B : Mat) : Except PamError Mat :=
  match bcDim A.rows B.rows, bcDim A.cols B.cols with
  | some R, some C =>
      .ok ((List.range R).map (fun i => (List.range C).map (fun j =>
        roundF (bget A A.rows A.cols i j * bget B B.rows B.cols i j))))
  | _, _ => .error .broadcastError

/-- numpy float64 scalar multiplication `k * image`: each product rounded to
the nearest double. -/
def smulF (k : ℚ) (m : Mat) : Mat :=
  m.map (fun row => row.map (fun v => roundF (k * v)))

/-- The notebook function with its multiplication at binary64 precision:
identical to `make_PAMcorr_image_UVIS` except that `data * pam[y0:y1, x0:x1]`
rounds every elementwise product to the nearest double, as numpy does. -/
def make_PAMcorr_image_UVIS_float (data : Mat) (scihdr : Header)
    (pamdir : String) (fitsdata : String → Mat) : Except PamError Mat :=
  match hget scihdr "LTV1", hget scihdr "LTV2", hget scihdr "NAXIS1",
        hget scihdr "NAXIS2", hget scihdr "CCDCHIP" with
  | some ltv1, some ltv2, some naxis1, some naxis2, some ccdchip =>
    let x0 : Int := pyInt |ltv1|
    let y0 : Int := pyInt |ltv2|
    let x1 : Int := pyInt ((x0 : ℚ) + naxis1)
    let y1 : Int := pyInt ((y0 : ℚ) + naxis2)
    if ccdchip = 1 then
      npMulF data (matSlice (fitsdata (pamdir ++ "UVIS1wfc3_map.fits")) y0 y1 x0 x1)
    else if ccdchip = 2 then
      npMulF data (matSlice (fitsdata (pamdir ++ "UVIS2wfc3_map.fits")) y0 y1 x0 x1)
    else .error .chipError
  | _, _, _, _, _ => .error .keyError

/-- The double nearest 0.1: `0x3FB999999999999A`, i.e.
`3602879701896397 × 2 ^ -55`. -/
def dTenth : ℚ := 3602879701896397 / 2 ^ 55

/-- Header for a 1×1 image at the origin of the map, chip 1. -/
def hdrC8 : Header :=
  [("LTV1", 0), ("LTV2", 0), ("NAXIS1", 1), ("NAXIS2", 1), ("CCDCHIP", 1)]

/-- C8 counterexample, at binary64 precision: with `k = 10` and image and
pixel-area map both `[[0.1]]` (the double nearest 0.1), correcting the
scaled image gives `[[0.1]]` — `10 × 0.1` rounds to exactly `1.0`, and
`1.0 × 0.1 = 0.1` — while scaling the corrected image gives
`[[0.10000000000000002]]`, one ulp higher, because `0.1 × 0.1` rounds up to
`0.010000000000000002`.  Exact linearity is therefore false of the float64
program. -/
theorem C8_float_counterexample :
    make_PAMcorr_image_UVIS_float (smulF 10 [[dTenth]]) hdrC8 "p/"
        (fun _ => [[dTenth]]) ≠
      Except.map (smulF 10)
        (make_PAMcorr_image_UVIS_float [[dTenth]] hdrC8 "p/" (fun _ => [[dTenth]])) ∧
    make_PAMcorr_image_UVIS_float (smulF 10 [[dTenth]]) hdrC8 "p/"
        (fun _ => [[dTenth]]) = .ok [[dTenth]] ∧
    Except.map (smulF 10)
        (make_PAMcorr_image_UVIS_float [[dTenth]] hdrC8 "p/" (fun _ => [[dTenth]])) =
      .ok [[dTenth + 1 / 2 ^ 56]] :=
  ⟨by decide, by decide, by decide⟩

theorem sliceIdx_of_nonneg (n : Nat) (i : ℤ) (h : 0 ≤ i) :
    sliceIdx n i = min i.toNat n := by
  unfold sliceIdx
  rw [if_neg (by omega)]

theorem pySlice_sublist {α : Type} (xs : List α) (i j : ℤ) :
    (pySlice xs i j).Sublist xs :=
  (List.take_sublist _ _).trans (List.drop_sublist _ _)

theorem pySlice_length_le {α : Type} (xs : List α) (i j : ℤ) :
    (pySlice xs i j).length ≤ xs.length :=
  (pySlice_sublist xs i j).length_le

theorem pySlice_length_eq {α : Type} (xs : List α) (i j : ℤ)
    (h0 : 0 ≤ i) (hij : i ≤ j) (hj : j ≤ xs.length) :
    (pySlice xs i j).length = (j - i).toNat := by
  unfold pySlice
  rw [sliceIdx_of_nonneg _ _ h0, sliceIdx_of_nonneg _ _ (le_trans h0 hij)]
  simp only [List.length_take, List.length_drop]
  omega

theorem matSlice_rows_eq (m : Mat) (y0 y1 x0 x1 : ℤ)
    (h0 : 0 ≤ y0) (hij : y0 ≤ y1) (hj : y1 ≤ (m.rows : ℤ)) :
    (matSlice m y0 y1 x0 x1).rows = (y1 - y0).toNat := by
  unfold matSlice Mat.rows
  rw [List.length_map]
  exact pySlice_length_eq m y0 y1 h0 hij hj

theorem matSlice_row_length (m : Mat) (y0 y1 x0 x1 : ℤ)
    (hx0 : 0 ≤ x0) (hx01 : x0 ≤ x1) (hx1 : x1 ≤ (m.cols : ℤ))
    (hrect : m.isRect) :
    ∀ row ∈ matSlice m y0 y1 x0 x1, row.length = (x1 - x0).toNat := by
  intro row hrow
  unfold matSlice at hrow
  obtain ⟨r, hr, rfl⟩ := List.mem_map.mp hrow
  have hrm : r ∈ m := (pySlice_sublist m y0 y1).subset hr
  exact pySlice_length_eq r x0 x1 hx0 hx01 (by rw [hrect r hrm]; exact hx1)

theorem matSlice_cols_eq (m : Mat) (y0 y1 x0 x1 : ℤ)
    (hx0 : 0 ≤ x0) (hx01 : x0 ≤ x1) (hx1 : x1 ≤ (m.cols : ℤ))
    (hrect : m.isRect) (hne : matSlice m y0 y1 x0 x1 ≠ []) :
    (matSlice m y0 y1 x0 x1).cols = (x1 - x0).toNat := by
  cases hsl : matSlice m y0 y1 x0 x1 with
  | nil => exact absurd hsl hne
  | cons row rest =>
    have hmem : row ∈ matSlice m y0 y1 x0 x1 := by
      rw [hsl]; exact List.mem_cons_self _ _
    have := matSlice_row_length m y0 y1 x0 x1 hx0 hx01 hx1 hrect row hmem
    simpa [Mat.cols] using this

theorem npMul_of_shape_eq (A B : Mat) (hr : B.rows = A.rows) (hc : B.cols = A.cols) :
    npMul A B = .ok ((List.range A.rows).map (fun i => (List.range A.cols).map (fun j =>
      bget A A.rows A.cols i j * bget B A.rows A.cols i j))) := by
  unfold npMul
  rw [hr, hc]
  simp [bcDim]

theorem rangeMat_rows (R C : Nat) (f : Nat → Nat → ℚ) :
    Mat.rows ((List.range R).map (fun i => (List.range C).map (f i))) = R := by
  simp [Mat.rows]

theorem rangeMat_cols (R C : Nat) (f : Nat → Nat → ℚ) (hR : 0 < R) :
    Mat.cols ((List.range R).map (fun i => (List.range C).map (f i))) = C := by
  unfold Mat.cols
  cases hR' : List.range R with
  | nil => exact absurd (List.range_eq_nil.mp hR') (by omega)
  | cons a t => simp [hR']

theorem make_unfold (data : Mat) (hdr : Header) (pd : String) (fd : String → Mat)
    (l1 l2 n1 n2 c : ℚ)
    (h1 : hget hdr "LTV1" = some l1) (h2 : hget hdr "LTV2" = some l2)
    (h3 : hget hdr "NAXIS1" = some n1) (h4 : hget hdr "NAXIS2" = some n2)
    (h5 : hget hdr "CCDCHIP" = some c) :
    make_PAMcorr_image_UVIS data hdr pd fd =
      if c = 1 then
        npMul data (matSlice (fd (pd ++ "UVIS1wfc3_map.fits"))
          (pyInt |l2|) (pyInt ((pyInt |l2| : ℚ) + n2))
          (pyInt |l1|) (pyInt ((pyInt |l1| : ℚ) + n1)))
      else if c = 2 then
        npMul data (matSlice (fd (pd ++ "UVIS2wfc3_map.fits"))
          (pyInt |l2|) (pyInt ((pyInt |l2| : ℚ) + n2))
          (pyInt |l1|) (pyInt ((pyInt |l1| : ℚ) + n1)))
      else .error .chipError := by
  simp only [make_PAMcorr_image_UVIS, h1, h2, h3, h4, h5]

theorem corrCore_shape (data pam : Mat) (y0 x0 n1 n2 : ℤ)
    (hy0 : 0 ≤ y0) (hx0 : 0 ≤ x0)
    (hW : n1 = (data.cols : ℤ)) (hH : n2 = (data.rows : ℤ))
    (hyb : y0 + n2 ≤ (pam.rows : ℤ)) (hxb : x0 + n1 ≤ (pam.cols : ℤ))
    (hprect : pam.isRect) :
    ∃ out, npMul data (matSlice pam y0 (y0 + n2) x0 (x0 + n1)) = .ok out ∧
      out.rows = data.rows ∧ out.cols = data.cols := by
  have hn2 : 0 ≤ n2 := by omega
  have hn1 : 0 ≤ n1 := by omega
  have hrr : (matSlice pam y0 (y0 + n2) x0 (x0 + n1)).rows = data.rows := by
    rw [matSlice_rows_eq pam _ _ _ _ hy0 (by omega) hyb]
    omega
  have hcc : (matSlice pam y0 (y0 + n2) x0 (x0 + n1)).cols = data.cols := by
    by_cases h0 : data.rows = 0
    · have hdata : data = [] := List.length_eq_zero.mp h0
      have hrows0 : (matSlice pam y0 (y0 + n2) x0 (x0 + n1)).rows = 0 := by omega
      have hr0 : matSlice pam y0 (y0 + n2) x0 (x0 + n1) = [] :=
        List.length_eq_zero.mp hrows0
      rw [hr0, hdata]
    · have hne : matSlice pam y0 (y0 + n2) x0 (x0 + n1) ≠ [] := by
        intro hnil
        apply h0
        rw [← hrr, hnil]
        rfl
      rw [matSlice_cols_eq pam _ _ _ _ hx0 (by omega) hxb hprect hne]
      omega
  rw [npMul_of_shape_eq data _ hrr hcc]
  refine ⟨_, rfl, rangeMat_rows _ _ _, ?_⟩
  by_cases h0 : data.rows = 0
  · have hdata : data = [] := List.length_eq_zero.mp h0
    rw [h0, hdata]
    rfl
  · rw [rangeMat_cols _ _ _ (Nat.pos_of_ne_zero h0)]

/-- C6: on every valid input — the five keywords present, integral axis
keywords equal to the image's actual column and row counts, a supported
chip, rectangular arrays, and the sub-rectangle inside the selected map —
the correction returns an array of exactly the image's shape. -/
theorem C6_shape_preserved (data : Mat) (hdr : Header) (pd : String)
    (fd : String → Mat) (l1 l2 n1 n2 c : ℚ) (pam : Mat)
    (h1 : hget hdr "LTV1" = some l1) (h2 : hget hdr "LTV2" = some l2)
    (h3 : hget hdr "NAXIS1" = some n1) (h4 : hget hdr "NAXIS2" = some n2)
    (h5 : hget hdr "CCDCHIP" = some c)
    (hn1 : n1.den = 1) (hn2 : n2.den = 1)
    (hc : c = 1 ∨ c = 2)
    (hpam : pam = if c = 1 then fd (pd ++ "UVIS1wfc3_map.fits")
                  else fd (pd ++ "UVIS2wfc3_map.fits"))
    (hW : n1.num = (data.cols : ℤ)) (hH : n2.num = (data.rows : ℤ))
    (hyb : ⌊|l2|⌋ + n2.num ≤ (pam.rows : ℤ))
    (hxb : ⌊|l1|⌋ + n1.num ≤ (pam.cols : ℤ))
    (hprect : pam.isRect) :
    ∃ out, make_PAMcorr_image_UVIS data hdr pd fd = .ok out ∧
      out.rows = data.rows ∧ out.cols = data.cols := by
  rw [make_unfold data hdr pd fd l1 l2 n1 n2 c h1 h2 h3 h4 h5,
    pyInt_abs l1, pyInt_abs l2,
    pyInt_add_intCast _ _ hn1, pyInt_add_intCast _ _ hn2]
  rcases hc with rfl | rfl
  · rw [if_pos rfl] at hpam ⊢
    subst hpam
    exact corrCore_shape data _ _ _ _ _
      (Int.floor_nonneg.mpr (abs_nonneg l2)) (Int.floor_nonneg.mpr (abs_nonneg l1))
      hW hH hyb hxb hprect
  · have h21 : (2 : ℚ) ≠ 1 := by norm_num
    rw [if_neg h21] at hpam ⊢
    rw [if_pos rfl]
    subst hpam
    exact corrCore_shape data _ _ _ _ _
      (Int.floor_nonneg.mpr (abs_nonneg l2)) (Int.floor_nonneg.mpr (abs_nonneg l1))
      hW hH hyb hxb hprect

theorem C6_witness :
    ∃ out, make_PAMcorr_image_UVIS [[10, 20], [30, 40]] hdrC1 "p/" fitsC1 = .ok out ∧
      Mat.rows out = Mat.rows [[10, 20], [30, 40]] ∧
      Mat.cols out = Mat.cols [[10, 20], [30, 40]] :=
  C6_shape_preserved [[10, 20], [30, 40]] hdrC1 "p/" fitsC1 (-1) (-1) 2 2 1 pamC1
    (by decide) (by decide) (by decide) (by decide) (by decide)
    (by decide) (by decide) (Or.inl rfl) (by rw [if_pos rfl]; rfl)
    (by decide) (by decide) (by norm_num [pamC1, Mat.rows])
    (by norm_num [pamC1, Mat.cols]) (by decide)

theorem rebuild_row (r : List ℚ) :
    (List.range r.length).map (fun j => r.getD j 0) = r := by
  induction r with
  | nil => rfl
  | cons a t ih =>
    rw [List.length_cons, List.range_succ_eq_map]
    simp only [List.map_cons, List.map_map, Function.comp_def, List.getD_cons_zero,
      List.getD_cons_succ]
    rw [ih]

theorem rebuild_mat (m : Mat) (C : Nat) (hrect : ∀ r ∈ m, r.length = C) :
    (List.range m.length).map (fun i =>
      (List.range C).map (fun j => (m.getD i []).getD j 0)) = m := by
  induction m with
  | nil => rfl
  | cons r t ih =>
    have hr : r.length = C := hrect r (List.mem_cons_self _ _)
    rw [List.length_cons, List.range_succ_eq_map]
    simp only [List.map_cons, List.map_map, Function.comp_def, List.getD_cons_zero,
      List.getD_cons_succ]
    congr 1
    · rw [← hr]
      exact rebuild_row r
    · exact ih (fun r' hr' => hrect r' (List.mem_cons_of_mem _ hr'))

theorem bget_in_range (m : Mat) (r c i j : Nat)
    (hr : r = m.rows) (hc : c = m.cols) (hi : i < r) (hj : j < c) :
    bget m r c i j = (m.getD i []).getD j 0 := by
  have e1 : (if r = 1 then 0 else i) = i := by split_ifs with h <;> omega
  have e2 : (if c = 1 then 0 else j) = j := by split_ifs with h <;> omega
  rw [bget, e1, e2]

theorem bget_of_all_one (B : Mat) (r c i j : Nat)
    (hr : r = B.rows) (hc : c = B.cols)
    (hone : ∀ row ∈ B, ∀ v ∈ row, v = 1)
    (hlen : ∀ row ∈ B, row.length = c)
    (hi : i < r) (hj : j < c) :
    bget B r c i j = 1 := by
  rw [bget_in_range B r c i j hr hc hi hj]
  have hilen : i < B.length := by
    rw [hr] at hi
    exact hi
  have hrow : B.getD i [] ∈ B := by
    rw [List.getD_eq_getElem B [] hilen]
    exact List.getElem_mem hilen
  have hjl : j < (B.getD i []).length := by
    rw [hlen _ hrow]
    exact hj
  have hv : (B.getD i []).getD j 0 ∈ B.getD i [] := by
    rw [List.getD_eq_getElem (B.getD i []) 0 hjl]
    exact List.getElem_mem hjl
  exact hone _ hrow _ hv

theorem corrCore_identity (data pam : Mat) (y0 x0 n1 n2 : ℤ)
    (hy0 : 0 ≤ y0) (hx0 : 0 ≤ x0)
    (hW : n1 = (data.cols : ℤ)) (hH : n2 = (data.rows : ℤ))
    (hyb : y0 + n2 ≤ (pam.rows : ℤ)) (hxb : x0 + n1 ≤ (pam.cols : ℤ))
    (hprect : pam.isRect) (hdrect : data.isRect)
    (hone : ∀ row ∈ matSlice pam y0 (y0 + n2) x0 (x0 + n1), ∀ v ∈ row, v = 1) :
    npMul data (matSlice pam y0 (y0 + n2) x0 (x0 + n1)) = .ok data := by
  have hrr : (matSlice pam y0 (y0 + n2) x0 (x0 + n1)).rows = data.rows := by
    rw [matSlice_rows_eq pam _ _ _ _ hy0 (by omega) hyb]
    omega
  have hlen : ∀ row ∈ matSlice pam y0 (y0 + n2) x0 (x0 + n1),
      row.length = data.cols := by
    intro row hrow
    rw [matSlice_row_length pam _ _ _ _ hx0 (by omega) hxb hprect row hrow]
    omega
  have hcc : (matSlice pam y0 (y0 + n2) x0 (x0 + n1)).cols = data.cols := by
    by_cases h0 : data.rows = 0
    · have hdata : data = [] := List.length_eq_zero.mp h0
      have hrows0 : (matSlice pam y0 (y0 + n2) x0 (x0 + n1)).rows = 0 := by omega
      have hr0 : matSlice pam y0 (y0 + n2) x0 (x0 + n1) = [] :=
        List.length_eq_zero.mp hrows0
      rw [hr0, hdata]
    · have hne : matSlice pam y0 (y0 + n2) x0 (x0 + n1) ≠ [] := by
        intro hnil
        apply h0
        rw [← hrr, hnil]
        rfl
      rw [matSlice_cols_eq pam _ _ _ _ hx0 (by omega) hxb hprect hne]
      omega
  rw [npMul_of_shape_eq data _ hrr hcc]
  congr 1
  have hmap : ∀ i ∈ List.range data.rows,
      ((List.range data.cols).map (fun j =>
        bget data data.rows data.cols i j *
        bget (matSlice pam y0 (y0 + n2) x0 (x0 + n1)) data.rows data.cols i j)) =
      (List.range data.cols).map (fun j => (data.getD i []).getD j 0) := by
    intro i hi
    apply List.map_congr_left
    intro j hj
    rw [List.mem_range] at hi hj
    rw [bget_in_range data data.rows data.cols i j rfl rfl hi hj,
      bget_of_all_one _ data.rows data.cols i j hrr.symm hcc.symm hone hlen hi hj,
      mul_one]
  rw [List.map_congr_left hmap]
  exact rebuild_mat data data.cols hdrect

/-- C7: identity — on every valid input whose selected region
`pam[y0:y1, x0:x1]` consists entirely of `1.0`, the correction returns the
image unchanged, exactly. -/
theorem C7_identity (data : Mat) (hdr : Header) (pd : String)
    (fd : String → Mat) (l1 l2 n1 n2 c : ℚ) (pam : Mat)
    (h1 : hget hdr "LTV1" = some l1) (h2 : hget hdr "LTV2" = some l2)
    (h3 : hget hdr "NAXIS1" = some n1) (h4 : hget hdr "NAXIS2" = some n2)
    (h5 : hget hdr "CCDCHIP" = some c)
    (hn1 : n1.den = 1) (hn2 : n2.den = 1)
    (hc : c = 1 ∨ c = 2)
    (hpam : pam = if c = 1 then fd (pd ++ "UVIS1wfc3_map.fits")
                  else fd (pd ++ "UVIS2wfc3_map.fits"))
    (hW : n1.num = (data.cols : ℤ)) (hH : n2.num = (data.rows : ℤ))
    (hyb : ⌊|l2|⌋ + n2.num ≤ (pam.rows : ℤ))
    (hxb : ⌊|l1|⌋ + n1.num ≤ (pam.cols : ℤ))
    (hprect : pam.isRect) (hdrect : data.isRect)
    (hone : ∀ row ∈ matSlice pam ⌊|l2|⌋ (⌊|l2|⌋ + n2.num) ⌊|l1|⌋ (⌊|l1|⌋ + n1.num),
      ∀ v ∈ row, v = 1) :
    make_PAMcorr_image_UVIS data hdr pd fd = .ok data := by
  rw [make_unfold data hdr pd fd l1 l2 n1 n2 c h1 h2 h3 h4 h5,
    pyInt_abs l1, pyInt_abs l2,
    pyInt_add_intCast _ _ hn1, pyInt_add_intCast _ _ hn2]
  rcases hc with rfl | rfl
  · rw [if_pos rfl] at hpam ⊢
    subst hpam
    exact corrCore_identity data _ _ _ _ _
      (Int.floor_nonneg.mpr (abs_nonneg l2)) (Int.floor_nonneg.mpr (abs_nonneg l1))
      hW hH hyb hxb hprect hdrect hone
  · have h21 : (2 : ℚ) ≠ 1 := by norm_num
    rw [if_neg h21] at hpam ⊢
    rw [if_pos rfl]
    subst hpam
    exact corrCore_identity data _ _ _ _ _
      (Int.floor_nonneg.mpr (abs_nonneg l2)) (Int.floor_nonneg.mpr (abs_nonneg l1))
      hW hH hyb hxb hprect hdrect hone

/-- A 4×4 all-ones pixel-area map for the identity witness. -/
def pamOnes : Mat :=
  [[1, 1, 1, 1], [1, 1, 1, 1], [1, 1, 1, 1], [1, 1, 1, 1]]

theorem C7_witness :
    make_PAMcorr_image_UVIS [[10, 20], [30, 40]] hdrC1 "p/" (fun _ => pamOnes) =
      .ok [[10, 20], [30, 40]] :=
  C7_identity [[10, 20], [30, 40]] hdrC1 "p/" (fun _ => pamOnes) (-1) (-1) 2 2 1 pamOnes
    (by decide) (by decide) (by decide) (by decide) (by decide)
    (by decide) (by decide) (Or.inl rfl) (by rw [if_pos rfl])
    (by decide) (by decide) (by norm_num [pamOnes, Mat.rows])
    (by norm_num [pamOnes, Mat.cols]) (by decide) (by decide)
    (by
      have hfl : ⌊|(-1 : ℚ)|⌋ = 1 := by norm_num
      rw [hfl]
      decide)

/-- Header whose sub-rectangle overruns the 4×4 map: `y1 = 3 + 2 = 5 > 4`. -/
def hdrC4 : Header :=
  [("LTV1", -1), ("LTV2", -3), ("NAXIS1", 2), ("NAXIS2", 2), ("CCDCHIP", 1)]

/-- C4 counterexample: with `LTV2 = -3`, `NAXIS2 = 2` and the 4×4 chip-1 map,
the sub-rectangle bottom `y1 = 5` exceeds the map's 4 rows, yet the function
raises nothing: numpy clips the slice to one row, broadcasting accepts the
`(1, 2)` against `(2, 2)` shapes, and an array is returned.  This refutes the
claim that an out-of-bounds rectangle fails with a `GeometryError` and never
yields a silently clipped result. -/
theorem C4_counterexample :
    pyInt ((pyInt |(-3 : ℚ)| : ℚ) + 2) = 5 ∧ Mat.rows pamC1 = 4 ∧
    make_PAMcorr_image_UVIS [[10, 20], [30, 40]] hdrC4 "p/" fitsC1 =
      .ok [[20, 40], [60, 80]] :=
  ⟨by decide, by decide, by decide⟩

/-- C4 as amended: the code performs no bounds check at all — the region is
the numpy slice, which silently clips to the map's extent (row count and row
lengths never exceed the map's), and the only possible failure is the
broadcast error of the multiplication, raised exactly when a clipped
dimension is incompatible with the image's. -/
theorem C4_amended (data : Mat) (hdr : Header) (pd : String)
    (fd : String → Mat) (l1 l2 n1 n2 c : ℚ) (pam : Mat)
    (h1 : hget hdr "LTV1" = some l1) (h2 : hget hdr "LTV2" = some l2)
    (h3 : hget hdr "NAXIS1" = some n1) (h4 : hget hdr "NAXIS2" = some n2)
    (h5 : hget hdr "CCDCHIP" = some c)
    (hc : c = 1 ∨ c = 2)
    (hpam : pam = if c = 1 then fd (pd ++ "UVIS1wfc3_map.fits")
                  else fd (pd ++ "UVIS2wfc3_map.fits")) :
    make_PAMcorr_image_UVIS data hdr pd fd =
      npMul data (matSlice pam (pyInt |l2|) (pyInt ((pyInt |l2| : ℚ) + n2))
        (pyInt |l1|) (pyInt ((pyInt |l1| : ℚ) + n1))) ∧
    (matSlice pam (pyInt |l2|) (pyInt ((pyInt |l2| : ℚ) + n2))
        (pyInt |l1|) (pyInt ((pyInt |l1| : ℚ) + n1))).rows ≤ pam.rows ∧
    (pam.isRect → ∀ row ∈ matSlice pam (pyInt |l2|) (pyInt ((pyInt |l2| : ℚ) + n2))
        (pyInt |l1|) (pyInt ((pyInt |l1| : ℚ) + n1)), row.length ≤ pam.cols) ∧
    (∀ A B : Mat, npMul A B = .error .broadcastError ↔
      (bcDim A.rows B.rows = none ∨ bcDim A.cols B.cols = none)) := by
  refine ⟨?_, ?_, ?_, ?_⟩
  · rw [make_unfold data hdr pd fd l1 l2 n1 n2 c h1 h2 h3 h4 h5]
    rcases hc with rfl | rfl
    · rw [if_pos rfl] at hpam ⊢
      rw [hpam]
    · have h21 : (2 : ℚ) ≠ 1 := by norm_num
      rw [if_neg h21] at hpam ⊢
      rw [if_pos rfl, hpam]
  · unfold matSlice Mat.rows
    rw [List.length_map]
    exact pySlice_length_le pam _ _
  · intro hrect row hrow
    obtain ⟨r, hr, rfl⟩ := List.mem_map.mp hrow
    have hrm : r ∈ pam := (pySlice_sublist pam _ _).subset hr
    calc (pySlice r _ _).length ≤ r.length := pySlice_length_le r _ _
      _ = pam.cols := hrect r hrm
  · intro A B
    unfold npMul
    cases hR : bcDim A.rows B.rows <;> cases hC : bcDim A.cols B.cols <;> simp

theorem C4_amended_witness :
    make_PAMcorr_image_UVIS [[10, 20], [30, 40]] hdrC4 "p/" fitsC1 =
      npMul [[10, 20], [30, 40]] (matSlice pamC1 (pyInt |(-3 : ℚ)|)
        (pyInt ((pyInt |(-3 : ℚ)| : ℚ) + 2)) (pyInt |(-1 : ℚ)|)
        (pyInt ((pyInt |(-1 : ℚ)| : ℚ) + 2))) ∧
    (matSlice pamC1 (pyInt |(-3 : ℚ)|) (pyInt ((pyInt |(-3 : ℚ)| : ℚ) + 2))
        (pyInt |(-1 : ℚ)|) (pyInt ((pyInt |(-1 : ℚ)| : ℚ) + 2))).rows ≤ pamC1.rows ∧
    (pamC1.isRect → ∀ row ∈ matSlice pamC1 (pyInt |(-3 : ℚ)|)
        (pyInt ((pyInt |(-3 : ℚ)| : ℚ) + 2)) (pyInt |(-1 : ℚ)|)
        (pyInt ((pyInt |(-1 : ℚ)| : ℚ) + 2)), row.length ≤ pamC1.cols) ∧
    (∀ A B : Mat, npMul A B = .error .broadcastError ↔
      (bcDim A.rows B.rows = none ∨ bcDim A.cols B.cols = none)) :=
  C4_amended [[10, 20], [30, 40]] hdrC4 "p/" fitsC1 (-1) (-3) 2 2 1 pamC1
    (by decide) (by decide) (by decide) (by decide) (by decide)
    (Or.inl rfl) (by rw [if_pos rfl]; rfl)

theorem npMul_cols_none (A B : Mat) (hnone : bcDim A.cols B.cols = none) :
    npMul A B = .error .broadcastError := by
  unfold npMul
  rw [hnone]
  cases bcDim A.rows B.rows <;> rfl

/-- Header declaring `NAXIS1 = 2` for a 1-column image. -/
def hdrC5 : Header :=
  [("LTV1", 0), ("LTV2", 0), ("NAXIS1", 2), ("NAXIS2", 2), ("CCDCHIP", 1)]

/-- C5 counterexample: the image `[[10],[30]]` has 1 column while the header
declares `NAXIS1 = 2`; the function performs no validation and, the `(2, 2)`
region broadcasting against the `(2, 1)` image, returns an array — one whose
shape does not even match the image — instead of raising a
`ShapeMismatchError`. -/
theorem C5_counterexample :
    Mat.cols [[(10 : ℚ)], [30]] = 1 ∧ hget hdrC5 "NAXIS1" = some 2 ∧
    make_PAMcorr_image_UVIS [[10], [30]] hdrC5 "p/" fitsC1 =
      .ok [[20, 20], [60, 60]] :=
  ⟨by decide, by decide, by decide⟩

/-- C5 as amended: the code never checks the declared axis lengths against
the image; a mismatch surfaces only through numpy broadcasting.  When the
(in-bounds) region's width `NAXIS1` differs from the image's column count and
neither is 1, the multiplication fails with the broadcast error (not a
dedicated shape error); when either width is 1, broadcasting silently
returns an array, as the counterexample shows. -/
theorem C5_amended (data : Mat) (hdr : Header) (pd : String)
    (fd : String → Mat) (l1 l2 n1 n2 c : ℚ) (pam : Mat)
    (h1 : hget hdr "LTV1" = some l1) (h2 : hget hdr "LTV2" = some l2)
    (h3 : hget hdr "NAXIS1" = some n1) (h4 : hget hdr "NAXIS2" = some n2)
    (h5 : hget hdr "CCDCHIP" = some c)
    (hn1 : n1.den = 1) (hn2 : n2.den = 1)
    (hc : c = 1 ∨ c = 2)
    (hpam : pam = if c = 1 then fd (pd ++ "UVIS1wfc3_map.fits")
                  else fd (pd ++ "UVIS2wfc3_map.fits"))
    (hprect : pam.isRect)
    (hn2pos : 0 < n2.num)
    (hyb : ⌊|l2|⌋ + n2.num ≤ (pam.rows : ℤ))
    (hxb : ⌊|l1|⌋ + n1.num ≤ (pam.cols : ℤ))
    (hn1nonneg : 0 ≤ n1.num)
    (hmm : n1.num.toNat ≠ data.cols)
    (hw1 : n1.num.toNat ≠ 1) (hw2 : data.cols ≠ 1) :
    make_PAMcorr_image_UVIS data hdr pd fd = .error .broadcastError := by
  rw [make_unfold data hdr pd fd l1 l2 n1 n2 c h1 h2 h3 h4 h5,
    pyInt_abs l1, pyInt_abs l2,
    pyInt_add_intCast _ _ hn1, pyInt_add_intCast _ _ hn2]
  have hy0 : (0 : ℤ) ≤ ⌊|l2|⌋ := Int.floor_nonneg.mpr (abs_nonneg l2)
  have hx0 : (0 : ℤ) ≤ ⌊|l1|⌋ := Int.floor_nonneg.mpr (abs_nonneg l1)
  have hrows : (matSlice pam ⌊|l2|⌋ (⌊|l2|⌋ + n2.num)
      ⌊|l1|⌋ (⌊|l1|⌋ + n1.num)).rows = n2.num.toNat := by
    rw [matSlice_rows_eq pam _ _ _ _ hy0 (by omega) hyb]
    omega
  have hne : matSlice pam ⌊|l2|⌋ (⌊|l2|⌋ + n2.num) ⌊|l1|⌋ (⌊|l1|⌋ + n1.num) ≠ [] := by
    intro hnil
    rw [hnil] at hrows
    have : n2.num.toNat = 0 := hrows.symm
    omega
  have hcols : (matSlice pam ⌊|l2|⌋ (⌊|l2|⌋ + n2.num)
      ⌊|l1|⌋ (⌊|l1|⌋ + n1.num)).cols = n1.num.toNat := by
    rw [matSlice_cols_eq pam _ _ _ _ hx0 (by omega) hxb hprect hne]
    omega
  have hnone : bcDim data.cols (matSlice pam ⌊|l2|⌋ (⌊|l2|⌋ + n2.num)
      ⌊|l1|⌋ (⌊|l1|⌋ + n1.num)).cols = none := by
    rw [hcols]
    unfold bcDim
    rw [if_neg (by omega), if_neg hw2, if_neg hw1]
  rcases hc with rfl | rfl
  · rw [if_pos rfl] at hpam ⊢
    rw [← hpam]
    exact npMul_cols_none data _ hnone
  · have h21 : (2 : ℚ) ≠ 1 := by norm_num
    rw [if_neg h21] at hpam ⊢
    rw [if_pos rfl, ← hpam]
    exact npMul_cols_none data _ hnone

/-- Header declaring `NAXIS1 = 3` for a 2-column image (in-bounds on the
4×4 map, widths 3 vs 2 incompatible). -/
def hdrC5b : Header :=
  [("LTV1", 0), ("LTV2", 0), ("NAXIS1", 3), ("NAXIS2", 2), ("CCDCHIP", 1)]

theorem C5_amended_witness :
    make_PAMcorr_image_UVIS [[10, 20], [30, 40]] hdrC5b "p/" fitsC1 =
      .error .broadcastError :=
  C5_amended [[10, 20], [30, 40]] hdrC5b "p/" fitsC1 0 0 3 2 1 pamC1
    (by decide) (by decide) (by decide) (by decide) (by decide)
    (by decide) (by decide) (Or.inl rfl) (by rw [if_pos rfl]; rfl) (by decide)
    (by decide) (by norm_num [pamC1, Mat.rows]) (by norm_num [pamC1, Mat.cols])
    (by decide) (by decide) (by decide) (by decide)

/-- A heap of allocated numpy arrays, for stating the no-mutation claim:
arrays are referred to by index, and every primitive of the source that
produces an array (`np.copy`, `fits.getdata`, `*`) allocates a fresh cell. -/
abbrev Heap : Type := List Mat

/-- Dereference an array id. -/
def heapGet (h : Heap) (i : Nat) : Mat := h.getD i []

/-- Allocate a fresh array, returning the new heap and the fresh id. -/
def alloc (h : Heap) (m : Mat) : Heap × Nat := (h ++ [m], h.length)

/-- The notebook function run against the allocation heap: `data` is passed
by reference, `np.copy(data)` allocates, `fits.getdata` allocates the map,
slicing is a view, and `*` allocates the result. -/
def make_PAMcorr_image_UVIS_heap (h : Heap) (dataRef : Nat) (scihdr : Header)
    (pamdir : String) (fitsdata : String → Mat) : Except PamError (Heap × Nat) :=
  match hget scihdr "LTV1", hget scihdr "LTV2", hget scihdr "NAXIS1",
        hget scihdr "NAXIS2", hget scihdr "CCDCHIP" with
  | some ltv1, some ltv2, some naxis1, some naxis2, some ccdchip =>
    let s1 := alloc h (heapGet h dataRef)
    let x0 : Int := pyInt |ltv1|
    let y0 : Int := pyInt |ltv2|
    let x1 : Int := pyInt ((x0 : ℚ) + naxis1)
    let y1 : Int := pyInt ((y0 : ℚ) + naxis2)
    if ccdchip = 1 then
      let s2 := alloc s1.1 (fitsdata (pamdir ++ "UVIS1wfc3_map.fits"))
      match npMul (heapGet s2.1 s1.2) (matSlice (heapGet s2.1 s2.2) y0 y1 x0 x1) with
      | .ok res => .ok (alloc s2.1 res)
      | .error e => .error e
    else if ccdchip = 2 then
      let s2 := alloc s1.1 (fitsdata (pamdir ++ "UVIS2wfc3_map.fits"))
      match npMul (heapGet s2.1 s1.2) (matSlice (heapGet s2.1 s2.2) y0 y1 x0 x1) with
      | .ok res => .ok (alloc s2.1 res)
      | .error e => .error e
    else .error .chipError
  | _, _, _, _, _ => .error .keyError

theorem heapGet_append_lt (h : Heap) (m : Mat) (i : Nat) (hi : i < h.length) :
    heapGet (h ++ [m]) i = heapGet h i := by
  unfold heapGet
  simp only [List.getD_eq_getElem?_getD]
  rw [List.getElem?_append_left hi]

theorem heapGet_append_self (h : Heap) (m : Mat) :
    heapGet (h ++ [m]) h.length = m := by
  unfold heapGet
  simp only [List.getD_eq_getElem?_getD]
  rw [List.getElem?_concat_length]
  rfl

/-- C9: the correction mutates nothing: running it on a heap of allocated
arrays leaves every pre-existing array (the input image, any shared map, any
other data) exactly as it was, returns a freshly allocated array, and the
fresh array holds exactly the value of the pure function on the inputs. -/
theorem C9_pure_allocation (h : Heap) (dataRef : Nat) (hdr : Header)
    (pd : String) (fd : String → Mat) (h' : Heap) (r : Nat)
    (hrun : make_PAMcorr_image_UVIS_heap h dataRef hdr pd fd = .ok (h', r)) :
    (∀ i, i < h.length → heapGet h' i = heapGet h i) ∧
    h.length ≤ r ∧
    make_PAMcorr_image_UVIS (heapGet h dataRef) hdr pd fd = .ok (heapGet h' r) := by
  revert hrun
  unfold make_PAMcorr_image_UVIS_heap make_PAMcorr_image_UVIS
  cases hget hdr "LTV1" <;> cases hget hdr "LTV2" <;> cases hget hdr "NAXIS1" <;>
    cases hget hdr "NAXIS2" <;> cases hget hdr "CCDCHIP" <;>
    intro hrun <;> try exact Except.noConfusion hrun
  rename_i l1 l2 n1 n2 c
  dsimp only [alloc] at hrun ⊢
  have e1 : ∀ X : Mat,
      heapGet ((h ++ [heapGet h dataRef]) ++ [X]) h.length = heapGet h dataRef :=
    fun X => by
      rw [heapGet_append_lt _ _ _ (by simp), heapGet_append_self]
  have e2 : ∀ X : Mat,
      heapGet ((h ++ [heapGet h dataRef]) ++ [X]) (h ++ [heapGet h dataRef]).length
        = X :=
    fun X => heapGet_append_self _ _
  rw [e1, e1, e2, e2] at hrun
  split_ifs at hrun ⊢ with hc1 hc2
  · cases hm : npMul (heapGet h dataRef)
      (matSlice (fd (pd ++ "UVIS1wfc3_map.fits")) (pyInt |l2|)
        (pyInt ((pyInt |l2| : ℚ) + n2)) (pyInt |l1|)
        (pyInt ((pyInt |l1| : ℚ) + n1))) with
    | error e => rw [hm] at hrun; exact Except.noConfusion hrun
    | ok res =>
      rw [hm] at hrun
      have hpair : ((h ++ [heapGet h dataRef]) ++
            [fd (pd ++ "UVIS1wfc3_map.fits")]) ++ [res] = h' ∧
          ((h ++ [heapGet h dataRef]) ++
            [fd (pd ++ "UVIS1wfc3_map.fits")]).length = r := by
        have := hrun
        simp only [Except.ok.injEq, Prod.mk.injEq] at this
        exact this
      obtain ⟨hh, hr⟩ := hpair
      subst hh hr
      refine ⟨?_, by simp, ?_⟩
      · intro i hi
        rw [heapGet_append_lt _ _ _ (by simp; omega),
          heapGet_append_lt _ _ _ (by simp; omega),
          heapGet_append_lt _ _ _ hi]
      · rw [heapGet_append_self]
  · cases hm : npMul (heapGet h dataRef)
      (matSlice (fd (pd ++ "UVIS2wfc3_map.fits")) (pyInt |l2|)
        (pyInt ((pyInt |l2| : ℚ) + n2)) (pyInt |l1|)
        (pyInt ((pyInt |l1| : ℚ) + n1))) with
    | error e => rw [hm] at hrun; exact Except.noConfusion hrun
    | ok res =>
      rw [hm] at hrun
      have hpair : ((h ++ [heapGet h dataRef]) ++
            [fd (pd ++ "UVIS2wfc3_map.fits")]) ++ [res] = h' ∧
          ((h ++ [heapGet h dataRef]) ++
            [fd (pd ++ "UVIS2wfc3_map.fits")]).length = r := by
        have := hrun
        simp only [Except.ok.injEq, Prod.mk.injEq] at this
        exact this
      obtain ⟨hh, hr⟩ := hpair
      subst hh hr
      refine ⟨?_, by simp, ?_⟩
      · intro i hi
        rw [heapGet_append_lt _ _ _ (by simp; omega),
          heapGet_append_lt _ _ _ (by simp; omega),
          heapGet_append_lt _ _ _ hi]
      · rw [heapGet_append_self]

/-- Initial heap for the allocation witness: one array, the input image. -/
def heapC9 : Heap := [[[10, 20], [30, 40]]]

/-- Final heap of the witness run: image untouched, then the copy, the map,
and the freshly allocated result. -/
def heapC9fin : Heap :=
  [[[10, 20], [30, 40]], [[10, 20], [30, 40]], pamC1, [[20, 40], [60, 80]]]

theorem C9_witness :
    (∀ i, i < heapC9.length → heapGet heapC9fin i = heapGet heapC9 i) ∧
    heapC9.length ≤ 3 ∧
    make_PAMcorr_image_UVIS (heapGet heapC9 0) hdrC1 "p/" fitsC1 =
      .ok (heapGet heapC9fin 3) :=
  C9_pure_allocation heapC9 0 hdrC1 "p/" fitsC1 heapC9fin 3 (by decide)
